import Mathlib

/-!
Verification of the SIP-to-gRPC gateway's declarative protocol-mapping
engine: the template evaluator, the field extractor, the endpoint
registry, and the two translation directions, together with the shipped
mapping configuration and the administrative UI's endpoint-edit flow.

The repository ships the rule table (configuration JSON), the proto
declarations and the administrative frontend; the mapping engine itself
is specified but not present as code, so the engine definitions below
are modelled from the specification (marked `Modelled from the spec:`).
The shipped configuration and the frontend's save-endpoint flow are
translated directly from the repository sources.
-/

namespace SipGateway

/-- A nested string tree: the substitution context of the template
evaluator and the field tree of a call descriptor.  Dot-path segments
become tree levels. -/
inductive Tree where
  | leaf (value : String)
  | node (children : List (String × Tree))

/-- Look up a child of a node by key (first match). -/
def lookupChild (key : String) : List (String × Tree) → Option Tree
  | [] => none
  | (k, t) :: rest => if k == key then some t else lookupChild key rest

/-- Modelled from the spec: walk a tree from the root name through each
child key; `none` when any step is missing. -/
def walk : Tree → List String → Option Tree
  | t, [] => some t
  | Tree.leaf _, _ :: _ => none
  | Tree.node cs, k :: ks =>
    match lookupChild k cs with
    | some t => walk t ks
    | none => none

/-- The string stored at a path, when the walk ends at a leaf. -/
def walkLeaf (t : Tree) (path : List String) : Option String :=
  match walk t path with
  | some (Tree.leaf s) => some s
  | _ => none

/-- Scan for the first closing brace: returns the token before it and
the remainder after it, or `none` when no closing brace exists. -/
def findClose : List Char → Option (List Char × List Char)
  | [] => none
  | c :: rest =>
    if c == '}' then some ([], rest)
    else
      match findClose rest with
      | some p => some (c :: p.1, p.2)
      | none => none

/-- Split a character list on `.` into dot-path segments. -/
def splitDotAux (acc : List Char) : List Char → List String
  | [] => [String.mk acc.reverse]
  | c :: rest =>
    if c == '.' then String.mk acc.reverse :: splitDotAux [] rest
    else splitDotAux (c :: acc) rest

/-- Split a dot path into its segments (e.g. `request.caller` into
`[request, caller]`). -/
def splitDot (s : String) : List String :=
  splitDotAux [] s.data

/-- Modelled from the spec: the value substituted for one brace token:
split the token on `.`, walk the context from the root name through the
child keys; a missing step (or a non-leaf result) degrades to the empty
string. -/
def tokenValue (ctx : Tree) (tok : List Char) : String :=
  match walk ctx (splitDot (String.mk tok)) with
  | some (Tree.leaf s) => s
  | _ => ""

/-- Modelled from the spec: one-pass non-greedy brace substitution over
the character list of a template, fuelled to make the recursion
structural.  Non-token characters are copied verbatim; an opening brace
with no later closing brace is copied verbatim.  With fuel at least the
length of the input the fuel never runs out (`renderFuel_congr`). -/
def renderFuel (ctx : Tree) : Nat → List Char → List Char
  | _, [] => []
  | 0, l => l
  | Nat.succ f, c :: rest =>
    if c == '{' then
      match findClose rest with
      | some p => (tokenValue ctx p.1).data ++ renderFuel ctx f p.2
      | none => c :: rest
    else
      c :: renderFuel ctx f rest

/-- Modelled from the spec: the template evaluator, missing from the
repository sources.  `render template context` substitutes each
brace-delimited token by the context value at its dot path. -/
def render (template : String) (ctx : Tree) : String :=
  String.mk (renderFuel ctx template.data.length template.data)

/-- The renderer applied with fuel equal to the input length. -/
def renderList (ctx : Tree) (l : List Char) : List Char :=
  renderFuel ctx l.length l

/-- The tagged extractor variant: exactly one value-producing kind. -/
inductive ExtractorSpec where
  | literal (value : String)
  | field (path : String)
  | extractHeader (headerName : String) (dflt : Option String)
  | template (templateString : String)

/-- Modelled from the spec: the extraction context bundles the source
field tree with the SIP headers (empty in the RPC-to-SIP direction). -/
structure ExtractionContext where
  tree : Tree
  headers : List (String × String)

/-- Lower-case a string character by character (case normalisation for
the case-insensitive header lookup). -/
def lowerString (s : String) : String :=
  String.mk (s.data.map Char.toLower)

/-- Modelled from the spec: case-insensitive header lookup with
last-write-wins on duplicate names. -/
def headerLookup (name : String) (headers : List (String × String)) :
    Option String :=
  headers.foldl
    (fun acc p => if lowerString p.1 == lowerString name then some p.2 else acc)
    none

/-- Modelled from the spec: the field extractor, missing from the
repository sources.  Resolves one configured extractor against the
context; missing lookups degrade to the configured default or the empty
string. -/
def resolve (spec : ExtractorSpec) (ctx : ExtractionContext) : String :=
  match spec with
  | ExtractorSpec.literal v => v
  | ExtractorSpec.field path => (walkLeaf ctx.tree (splitDot path)).getD ""
  | ExtractorSpec.extractHeader name dflt =>
    match headerLookup name ctx.headers with
    | some v => v
    | none => dflt.getD ""
  | ExtractorSpec.template t => render t ctx.tree

/-- A named backend RPC target, shaped as in the configuration JSON. -/
structure Endpoint where
  name : String
  host : String
  port : Nat
  service : String
  use_tls : Bool
deriving DecidableEq

/-- The endpoint registry's snapshot: the list of registered endpoints. -/
abbrev Registry := List Endpoint

inductive RegistryError where
  | alreadyExists
  | notFound
deriving DecidableEq

/-- Modelled from the spec: registry read by name. -/
def get (name : String) (reg : Registry) : Option Endpoint :=
  reg.find? (fun e => e.name == name)

/-- Modelled from the spec: `add` builds a new snapshot with the one new
entry; on a duplicate name it fails and the published state is the old
snapshot unchanged. -/
def add (reg : Registry) (e : Endpoint) :
    Registry × Except RegistryError Unit :=
  if reg.any (fun x => x.name == e.name) then
    (reg, Except.error RegistryError.alreadyExists)
  else
    (reg ++ [e], Except.ok ())

/-- Modelled from the spec: `remove` builds a new snapshot without the
named entry; on an absent name it fails and the published state is the
old snapshot unchanged. -/
def remove (reg : Registry) (name : String) :
    Registry × Except RegistryError Unit :=
  if reg.any (fun x => x.name == name) then
    (reg.filter (fun x => !(x.name == name)), Except.ok ())
  else
    (reg, Except.error RegistryError.notFound)

/-- A SIP-to-RPC rule, shaped as one entry of `mapping.sip_to_grpc`. -/
structure SipRule where
  endpoint : String
  method : String
  fields : List (String × ExtractorSpec)

/-- An RPC-to-SIP rule, shaped as one entry of `mapping.grpc_to_sip`. -/
structure RpcRule where
  status_code : Nat
  reason : String
  headers : List (String × ExtractorSpec)
  body : Option ExtractorSpec

inductive MappingError where
  | unmappedMethod
  | unknownEndpoint
  | unmappedResponse
  | invalidExtractor
deriving DecidableEq

/-- First-match lookup of a rule by its match key. -/
def lookupRule {α : Type} (table : List (String × α)) (key : String) :
    Option α :=
  match table.find? (fun p => p.1 == key) with
  | some p => some p.2
  | none => none

/-- Modelled from the spec: exact-match rule lookup with fallback to the
`DEFAULT` entry. -/
def selectRule {α : Type} (table : List (String × α)) (key : String) :
    Option α :=
  match lookupRule table key with
  | some r => some r
  | none => lookupRule table "DEFAULT"

/-- A parsed SIP request as delivered by the transport layer. -/
structure SipRequest where
  method : String
  uri : String
  headers : List (String × String)
  body : String

/-- A SIP response envelope assembled by the engine. -/
structure SipResponse where
  statusCode : Nat
  reason : String
  headers : List (String × String)
  body : String

/-- The engine's structured output for the SIP-to-RPC direction. -/
structure CallDescriptor where
  endpointName : String
  method : String
  fields : Tree

/-- Insert a string at a dot path, creating intermediate nodes. -/
def insertPath : List String → String → Tree → Tree
  | [], value, _ => Tree.leaf value
  | k :: ks, value, t =>
    match t with
    | Tree.node cs =>
      match lookupChild k cs with
      | some child =>
        Tree.node (cs.map (fun p =>
          if p.1 == k then (p.1, insertPath ks value child) else p))
      | none => Tree.node (cs ++ [(k, insertPath ks value (Tree.node []))])
    | Tree.leaf _ => Tree.node [(k, insertPath ks value (Tree.node []))]

/-- Modelled from the spec: the extraction context built from a SIP
request exposes `method`, `uri`, `headers` and `body`. -/
def sipContext (sip : SipRequest) : ExtractionContext :=
  { tree := Tree.node
      [("method", Tree.leaf sip.method),
       ("uri", Tree.leaf sip.uri),
       ("headers", Tree.node (sip.headers.map
          (fun p => (p.1, Tree.leaf p.2)))),
       ("body", Tree.leaf sip.body)],
    headers := sip.headers }

/-- Modelled from the spec: resolve each field mapping in declared order
and assign it at its dot path in the output field tree. -/
def buildFields (ctx : ExtractionContext)
    (mappings : List (String × ExtractorSpec)) : Tree :=
  mappings.foldl
    (fun t p => insertPath (splitDot p.1) (resolve p.2 ctx) t)
    (Tree.node [])

/-- Modelled from the spec: translate with an already selected rule —
resolve the endpoint, then build the field tree. -/
def applyRule (rule : SipRule) (sip : SipRequest) (reg : Registry) :
    Except MappingError CallDescriptor :=
  match get rule.endpoint reg with
  | none => Except.error MappingError.unknownEndpoint
  | some _ =>
    Except.ok
      { endpointName := rule.endpoint,
        method := rule.method,
        fields := buildFields (sipContext sip) rule.fields }

/-- Modelled from the spec: the SIP-to-RPC direction of the mapping
engine, missing from the repository sources. -/
def translateRequest (sip : SipRequest) (table : List (String × SipRule))
    (reg : Registry) : Except MappingError CallDescriptor :=
  match selectRule table sip.method with
  | none => Except.error MappingError.unmappedMethod
  | some rule => applyRule rule sip reg

/-- Modelled from the spec: the RPC response context exposes the
response tree under the root key `data`; no SIP headers exist in this
direction. -/
def dataContext (responseData : Tree) : ExtractionContext :=
  { tree := Tree.node [("data", responseData)], headers := [] }

/-- Modelled from the spec: the RPC-to-SIP direction of the mapping
engine, missing from the repository sources. -/
def translateResponse (endpointName method : String) (responseData : Tree)
    (table : List (String × RpcRule)) : Except MappingError SipResponse :=
  match selectRule table (endpointName ++ "." ++ method) with
  | none => Except.error MappingError.unmappedResponse
  | some rule =>
    Except.ok
      { statusCode := rule.status_code,
        reason := rule.reason,
        headers := rule.headers.map
          (fun p => (p.1, resolve p.2 (dataContext responseData))),
        body :=
          match rule.body with
          | some spec => resolve spec (dataContext responseData)
          | none => "" }

/-- A raw extractor specification exactly as it appears in the
configuration JSON: a duck-typed object distinguished by which keys are
present. -/
structure RawSpec where
  value : Option String := none
  field : Option String := none
  transformer : Option String := none
  header_name : Option String := none
  dflt : Option String := none
  template : Option String := none

/-- A raw `sip_to_grpc` rule as it appears in the configuration JSON. -/
structure RawSipRule where
  endpoint : String
  method : String
  fields : List (String × RawSpec)

/-- A raw `grpc_to_sip` rule as it appears in the configuration JSON. -/
structure RawRpcRule where
  status_code : Nat
  reason : String
  headers : List (String × RawSpec)
  body : Option RawSpec

/-- The number of defining extractor kinds set on a raw specification. -/
def kindCount (s : RawSpec) : Nat :=
  (if s.value.isSome then 1 else 0) +
  (if s.field.isSome then 1 else 0) +
  (if s.transformer.isSome then 1 else 0)

/-- Modelled from the spec: load-time validation of one raw extractor,
missing from the repository sources.  A specification with none or more
than one defining key set, or a transformer without its required
companion key, is `invalidExtractor`. -/
def validateRaw (s : RawSpec) : Except MappingError ExtractorSpec :=
  if kindCount s ≠ 1 then Except.error MappingError.invalidExtractor
  else
    match s.value, s.field, s.transformer with
    | some v, _, _ => Except.ok (ExtractorSpec.literal v)
    | none, some p, _ => Except.ok (ExtractorSpec.field p)
    | none, none, some t =>
      if t == "extract_header" then
        match s.header_name with
        | some n => Except.ok (ExtractorSpec.extractHeader n s.dflt)
        | none => Except.error MappingError.invalidExtractor
      else if t == "template" then
        match s.template with
        | some tpl => Except.ok (ExtractorSpec.template tpl)
        | none => Except.error MappingError.invalidExtractor
      else Except.error MappingError.invalidExtractor
    | none, none, none => Except.error MappingError.invalidExtractor

/-- Validate every field mapping of one raw SIP-to-RPC rule. -/
def validateSipRule (r : RawSipRule) : Except MappingError SipRule := do
  let fs ← r.fields.mapM (fun p => do
    let s ← validateRaw p.2
    pure (p.1, s))
  pure { endpoint := r.endpoint, method := r.method, fields := fs }

/-- Validate every header mapping and the body mapping of one raw
RPC-to-SIP rule. -/
def validateRpcRule (r : RawRpcRule) : Except MappingError RpcRule := do
  let hs ← r.headers.mapM (fun p => do
    let s ← validateRaw p.2
    pure (p.1, s))
  let b ← match r.body with
    | none => pure none
    | some raw => do
      let s ← validateRaw raw
      pure (some s)
  pure { status_code := r.status_code, reason := r.reason,
         headers := hs, body := b }

/-- Validate a whole keyed rule table. -/
def validateTable {α β : Type} (f : α → Except MappingError β)
    (table : List (String × α)) : Except MappingError (List (String × β)) :=
  table.mapM (fun p => do
    let r ← f p.2
    pure (p.1, r))

/-- Shorthand for a raw `extract_header` specification. -/
def rawHeaderSpec (n : String) : RawSpec :=
  { transformer := some "extract_header", header_name := some n }

/-- The raw `mapping.sip_to_grpc` table from the shipped configuration
JSON, entry for entry. -/
def rawSipToGrpc : List (String × RawSipRule) :=
  [("INVITE",
    { endpoint := "example", method := "Call",
      fields :=
        [("request.caller", rawHeaderSpec "From"),
         ("request.callee", rawHeaderSpec "To"),
         ("request.call_id", rawHeaderSpec "Call-ID")] }),
   ("REGISTER",
    { endpoint := "example", method := "Register",
      fields :=
        [("request.user", rawHeaderSpec "From"),
         ("request.expires",
          { transformer := some "extract_header",
            header_name := some "Expires", dflt := some "3600" })] }),
   ("BYE",
    { endpoint := "example", method := "EndCall",
      fields := [("request.call_id", rawHeaderSpec "Call-ID")] }),
   ("MESSAGE",
    { endpoint := "example", method := "SendMessage",
      fields :=
        [("request.from", rawHeaderSpec "From"),
         ("request.to", rawHeaderSpec "To"),
         ("request.content", { field := some "body" })] }),
   ("DEFAULT",
    { endpoint := "example", method := "Process",
      fields :=
        [("request.method", { field := some "method" }),
         ("request.uri", { field := some "uri" }),
         ("request.headers", { field := some "headers" })] })]

/-- The raw `mapping.grpc_to_sip` table from the shipped configuration
JSON, entry for entry. -/
def rawGrpcToSip : List (String × RawRpcRule) :=
  [("example.Call",
    { status_code := 200, reason := "OK",
      headers :=
        [("Content-Type", { value := some "application/json" }),
         ("Contact",
          { transformer := some "template",
            template := some "<sip:{data.service}@{data.host}:{data.port}>" })],
      body := some
        { transformer := some "template",
          template := some
            "\x7b\n  \"call_id\": \"{data.call_id}\",\n  \"status\": \"{data.status}\"\n\x7d" } }),
   ("example.Register",
    { status_code := 200, reason := "OK",
      headers := [("Expires", { field := some "data.expires" })],
      body := none }),
   ("DEFAULT",
    { status_code := 200, reason := "OK",
      headers := [("Content-Type", { value := some "application/json" })],
      body := some
        { transformer := some "template",
          template := some "\x7b\n  \"result\": \"success\"\n\x7d" } })]

/-- The shipped endpoint list (`grpc.endpoints` in the configuration). -/
def exampleEndpoint : Endpoint :=
  { name := "example", host := "localhost", port := 50051,
    service := "Example", use_tls := false }

def shippedRegistry : Registry := [exampleEndpoint]

/-- The shipped SIP-to-RPC rules in tagged (validated) form. -/
def inviteRule : SipRule :=
  { endpoint := "example", method := "Call",
    fields :=
      [("request.caller", ExtractorSpec.extractHeader "From" none),
       ("request.callee", ExtractorSpec.extractHeader "To" none),
       ("request.call_id", ExtractorSpec.extractHeader "Call-ID" none)] }

def registerRule : SipRule :=
  { endpoint := "example", method := "Register",
    fields :=
      [("request.user", ExtractorSpec.extractHeader "From" none),
       ("request.expires",
        ExtractorSpec.extractHeader "Expires" (some "3600"))] }

def byeRule : SipRule :=
  { endpoint := "example", method := "EndCall",
    fields := [("request.call_id", ExtractorSpec.extractHeader "Call-ID" none)] }

def messageRule : SipRule :=
  { endpoint := "example", method := "SendMessage",
    fields :=
      [("request.from", ExtractorSpec.extractHeader "From" none),
       ("request.to", ExtractorSpec.extractHeader "To" none),
       ("request.content", ExtractorSpec.field "body")] }

def defaultSipRule : SipRule :=
  { endpoint := "example", method := "Process",
    fields :=
      [("request.method", ExtractorSpec.field "method"),
       ("request.uri", ExtractorSpec.field "uri"),
       ("request.headers", ExtractorSpec.field "headers")] }

def shippedSipToGrpc : List (String × SipRule) :=
  [("INVITE", inviteRule), ("REGISTER", registerRule), ("BYE", byeRule),
   ("MESSAGE", messageRule), ("DEFAULT", defaultSipRule)]

/-- The shipped RPC-to-SIP rules in tagged (validated) form. -/
def callRpcRule : RpcRule :=
  { status_code := 200, reason := "OK",
    headers :=
      [("Content-Type", ExtractorSpec.literal "application/json"),
       ("Contact",
        ExtractorSpec.template "<sip:{data.service}@{data.host}:{data.port}>")],
    body := some (ExtractorSpec.template
      "\x7b\n  \"call_id\": \"{data.call_id}\",\n  \"status\": \"{data.status}\"\n\x7d") }

def registerRpcRule : RpcRule :=
  { status_code := 200, reason := "OK",
    headers := [("Expires", ExtractorSpec.field "data.expires")],
    body := none }

def defaultRpcRule : RpcRule :=
  { status_code := 200, reason := "OK",
    headers := [("Content-Type", ExtractorSpec.literal "application/json")],
    body := some (ExtractorSpec.template "\x7b\n  \"result\": \"success\"\n\x7d") }

def shippedGrpcToSip : List (String × RpcRule) :=
  [("example.Call", callRpcRule), ("example.Register", registerRpcRule),
   ("DEFAULT", defaultRpcRule)]

/-- The endpoint-edit flow of the administrative UI: the intermediate
registry state after the delete and before the re-add. -/
def editIntermediate (reg : Registry) (e : Endpoint) : Registry :=
  (remove reg e.name).1

/-- Translated from the frontend's `handleSaveEndpoint`: in `add` mode
one registry insertion; in edit mode a delete of the endpoint's name
followed by a re-add of the edited endpoint (two separate mutations). -/
def handleSaveEndpoint (dialogMode : String) (reg : Registry)
    (e : Endpoint) : Registry :=
  if dialogMode == "add" then (add reg e).1
  else (add (editIntermediate reg e) e).1

/-- A registry mutation, as issued through the CRUD interface. -/
inductive RegOp where
  | addOp (e : Endpoint)
  | removeOp (n : String)

/-- The registry snapshot published after one atomic mutation. -/
def applyOp (reg : Registry) : RegOp → Registry
  | RegOp.addOp e => (add reg e).1
  | RegOp.removeOp n => (remove reg n).1

/-- One step of an interleaving: a registry mutation or an in-flight
translation call. -/
inductive Event where
  | mutate (op : RegOp)
  | call (sip : SipRequest)

/-- The registry mutations of a trace, in order. -/
def mutOps : List Event → List RegOp
  | [] => []
  | Event.mutate op :: es => op :: mutOps es
  | Event.call _ :: es => mutOps es

/-- Modelled from the spec: execution of an interleaved trace.  Each
mutation atomically publishes the next snapshot; each translation call
reads the one snapshot current at its position and produces its
result. -/
def runTrace (table : List (String × SipRule)) (reg : Registry) :
    List Event → List (Except MappingError CallDescriptor)
  | [] => []
  | Event.mutate op :: es => runTrace table (applyOp reg op) es
  | Event.call sip :: es =>
    translateRequest sip table reg :: runTrace table reg es

/-- The INVITE request of the specification's worked example. -/
def inviteSip : SipRequest :=
  { method := "INVITE", uri := "sip:bob@example.com",
    headers := [("From", "alice"), ("To", "bob"), ("Call-ID", "cid1")],
    body := "" }

/-- The REGISTER request of the specification's worked example: a
`From` header and no `Expires` header. -/
def registerSip : SipRequest :=
  { method := "REGISTER", uri := "sip:example.com",
    headers := [("From", "alice")], body := "" }

/-- A request whose method has no rule in the shipped table. -/
def optionsSip : SipRequest :=
  { method := "OPTIONS", uri := "sip:example.com", headers := [],
    body := "" }

/-- The endpoint name of a successful translation result. -/
def resultEndpoint (r : Except MappingError CallDescriptor) :
    Option String :=
  match r with
  | Except.ok d => some d.endpointName
  | Except.error _ => none

/-- The target method of a successful translation result. -/
def resultMethod (r : Except MappingError CallDescriptor) :
    Option String :=
  match r with
  | Except.ok d => some d.method
  | Except.error _ => none

/-- The field stored at a path of a successful translation result. -/
def resultField (r : Except MappingError CallDescriptor)
    (path : List String) : Option String :=
  match r with
  | Except.ok d => walkLeaf d.fields path
  | Except.error _ => none

/-- The brace scan consumes at least the closing brace: the remainder
it returns is strictly shorter than its input. -/
theorem findClose_length_lt :
    ∀ {l : List Char} {p : List Char × List Char},
      findClose l = some p → p.2.length < l.length := by
  intro l
  induction l with
  | nil => intro p h; simp [findClose] at h
  | cons c rest ih =>
    intro p h
    simp only [findClose] at h
    by_cases hc : (c == '}') = true
    · rw [if_pos hc] at h
      cases h
      exact Nat.lt_succ_self _
    · rw [if_neg hc] at h
      cases hrec : findClose rest with
      | none => rw [hrec] at h; cases h
      | some q =>
        rw [hrec] at h
        cases h
        have hq : q.2.length < rest.length := ih hrec
        exact Nat.lt_succ_of_lt hq

/-- The fuel is irrelevant once it covers the input length. -/
theorem renderFuel_congr (ctx : Tree) :
    ∀ (f₁ f₂ : Nat) (l : List Char), l.length ≤ f₁ → l.length ≤ f₂ →
      renderFuel ctx f₁ l = renderFuel ctx f₂ l := by
  intro f₁
  induction f₁ with
  | zero =>
    intro f₂ l h₁ _
    cases l with
    | nil => cases f₂ <;> rfl
    | cons c rest => simp at h₁
  | succ f ih =>
    intro f₂ l h₁ h₂
    cases l with
    | nil => cases f₂ <;> rfl
    | cons c rest =>
      cases f₂ with
      | zero => simp at h₂
      | succ f' =>
        have hlen : rest.length ≤ f := by simpa using h₁
        have hlen' : rest.length ≤ f' := by simpa using h₂
        simp only [renderFuel]
        by_cases hc : (c == '{') = true
        · rw [if_pos hc, if_pos hc]
          cases hfc : findClose rest with
          | none => rfl
          | some p =>
            have hlt : p.2.length < rest.length := findClose_length_lt hfc
            show (tokenValue ctx p.1).data ++ renderFuel ctx f p.2 =
              (tokenValue ctx p.1).data ++ renderFuel ctx f' p.2
            rw [ih f' p.2 (Nat.le_trans (Nat.le_of_lt hlt) hlen)
              (Nat.le_trans (Nat.le_of_lt hlt) hlen')]
        · rw [if_neg hc, if_neg hc]
          rw [ih f' rest hlen hlen']

/-- C1: for every SIP request, mapping table and registry,
`translateRequest` selects the rule whose match key equals the
request's method exactly; if no such rule exists it selects the
`DEFAULT` rule; and if neither exists it returns the `UnmappedMethod`
error and no call descriptor. -/
theorem translateRequest_rule_selection (sip : SipRequest)
    (table : List (String × SipRule)) (reg : Registry) :
    (∀ r, lookupRule table sip.method = some r →
      translateRequest sip table reg = applyRule r sip reg) ∧
    (lookupRule table sip.method = none →
      ∀ d, lookupRule table "DEFAULT" = some d →
        translateRequest sip table reg = applyRule d sip reg) ∧
    (lookupRule table sip.method = none →
      lookupRule table "DEFAULT" = none →
        translateRequest sip table reg =
          Except.error MappingError.unmappedMethod) := by
  refine ⟨?_, ?_, ?_⟩
  · intro r h
    simp [translateRequest, selectRule, h]
  · intro h d hd
    simp [translateRequest, selectRule, h, hd]
  · intro h hd
    simp [translateRequest, selectRule, h, hd]

/-- Witness for C1: the exact-match, DEFAULT-fallback and error branches
at concrete inputs. -/
theorem translateRequest_rule_selection_witness :
    translateRequest inviteSip shippedSipToGrpc shippedRegistry =
      applyRule inviteRule inviteSip shippedRegistry ∧
    translateRequest optionsSip shippedSipToGrpc shippedRegistry =
      applyRule defaultSipRule optionsSip shippedRegistry ∧
    translateRequest optionsSip [] shippedRegistry =
      Except.error MappingError.unmappedMethod :=
  ⟨(translateRequest_rule_selection inviteSip shippedSipToGrpc
      shippedRegistry).1 inviteRule rfl,
   (translateRequest_rule_selection optionsSip shippedSipToGrpc
      shippedRegistry).2.1 rfl defaultSipRule rfl,
   (translateRequest_rule_selection optionsSip [] shippedRegistry).2.2
     rfl rfl⟩

/-- C2: the INVITE example — under the shipped rule set with the
`example` endpoint registered, the INVITE request with headers
`From: alice`, `To: bob`, `Call-ID: cid1` translates to endpoint
`example`, method `Call`, with `request.caller = alice`,
`request.callee = bob` and `request.call_id = cid1`. -/
theorem invite_translation_example :
    resultEndpoint (translateRequest inviteSip shippedSipToGrpc
      shippedRegistry) = some "example" ∧
    resultMethod (translateRequest inviteSip shippedSipToGrpc
      shippedRegistry) = some "Call" ∧
    resultField (translateRequest inviteSip shippedSipToGrpc
      shippedRegistry) ["request", "caller"] = some "alice" ∧
    resultField (translateRequest inviteSip shippedSipToGrpc
      shippedRegistry) ["request", "callee"] = some "bob" ∧
    resultField (translateRequest inviteSip shippedSipToGrpc
      shippedRegistry) ["request", "call_id"] = some "cid1" :=
  ⟨rfl, rfl, rfl, rfl, rfl⟩

/-- The header fold keeps its accumulator across entries that do not
match the looked-up name case-insensitively. -/
theorem headerFold_no_match (name : String) :
    ∀ (hs : List (String × String)) (acc : Option String),
      (∀ p ∈ hs, lowerString p.1 ≠ lowerString name) →
      hs.foldl
        (fun acc p =>
          if lowerString p.1 == lowerString name then some p.2 else acc)
        acc = acc := by
  intro hs
  induction hs with
  | nil => intro acc _; rfl
  | cons q qs ih =>
    intro acc h
    have hq : (lowerString q.1 == lowerString name) = false :=
      beq_eq_false_iff_ne.mpr (h q (List.mem_cons_self q qs))
    rw [List.foldl_cons, hq]
    exact ih acc (fun p hp => h p (List.mem_cons_of_mem q hp))

/-- C3: `ExtractHeader` resolves to the value stored under the name by
case-insensitive lookup when present (last write wins), to the
configured default when absent, and to the empty string when absent
with no default; concretely, the shipped REGISTER rule yields
`request.expires = 3600` when no `Expires` header is present. -/
theorem extract_header_resolution :
    (∀ (name : String) (d : Option String) (ctx : ExtractionContext),
      (∀ p ∈ ctx.headers, lowerString p.1 ≠ lowerString name) →
      resolve (ExtractorSpec.extractHeader name d) ctx = d.getD "") ∧
    (∀ (name : String) (d : Option String) (t : Tree)
       (l₁ l₂ : List (String × String)) (n v : String),
      lowerString n = lowerString name →
      (∀ p ∈ l₂, lowerString p.1 ≠ lowerString name) →
      resolve (ExtractorSpec.extractHeader name d)
        { tree := t, headers := l₁ ++ (n, v) :: l₂ } = v) ∧
    resultField (translateRequest registerSip shippedSipToGrpc
      shippedRegistry) ["request", "expires"] = some "3600" := by
  refine ⟨?_, ?_, rfl⟩
  · intro name d ctx h
    simp only [resolve, headerLookup]
    rw [headerFold_no_match name ctx.headers none h]
  · intro name d t l₁ l₂ n v hn h₂
    simp only [resolve, headerLookup]
    rw [List.foldl_append, List.foldl_cons, beq_iff_eq.mpr hn, if_pos rfl]
    rw [headerFold_no_match name l₂ (some v) h₂]

/-- Witness for C3: the default branch on a request with no `Expires`
header, and the case-insensitive last-write-wins branch. -/
theorem extract_header_resolution_witness :
    resolve (ExtractorSpec.extractHeader "Expires" (some "3600"))
      { tree := Tree.node [], headers := [("From", "alice")] } = "3600" ∧
    resolve (ExtractorSpec.extractHeader "from" none)
      { tree := Tree.node [],
        headers := [("To", "bob")] ++ ("From", "alice") :: [] } = "alice" :=
  ⟨extract_header_resolution.1 "Expires" (some "3600")
     { tree := Tree.node [], headers := [("From", "alice")] } (by decide),
   extract_header_resolution.2.1 "from" none (Tree.node [])
     [("To", "bob")] [] "From" "alice" (by decide) (by decide)⟩

/-- The brace scan finds the first closing brace: a token free of
closing braces is consumed whole. -/
theorem findClose_no_close (tok rest : List Char) (h : '}' ∉ tok) :
    findClose (tok ++ '}' :: rest) = some (tok, rest) := by
  induction tok with
  | nil => simp [findClose]
  | cons c cs ih =>
    have hc : (c == '}') = false := beq_eq_false_iff_ne.mpr
      (fun e => h (by rw [e]; exact List.mem_cons_self '}' cs))
    have h' : '}' ∉ cs := fun hm => h (List.mem_cons_of_mem c hm)
    rw [List.cons_append]
    simp only [findClose, hc]
    rw [if_neg (by simp), ih h']

/-- A non-brace character is copied verbatim. -/
theorem renderList_cons_ne (ctx : Tree) (c : Char) (l : List Char)
    (hc : c ≠ '{') :
    renderList ctx (c :: l) = c :: renderList ctx l := by
  have hc' : (c == '{') = false := beq_eq_false_iff_ne.mpr hc
  show renderFuel ctx (Nat.succ l.length) (c :: l) = _
  simp only [renderFuel, hc']
  rw [if_neg (by simp)]
  rfl

/-- An opening brace whose token is free of closing braces consumes the
token up to the first closing brace and substitutes its value. -/
theorem renderList_token (ctx : Tree) (tok suf : List Char)
    (h : '}' ∉ tok) :
    renderList ctx ('{' :: (tok ++ '}' :: suf)) =
      (tokenValue ctx tok).data ++ renderList ctx suf := by
  show renderFuel ctx (Nat.succ (tok ++ '}' :: suf).length)
    ('{' :: (tok ++ '}' :: suf)) = _
  simp only [renderFuel]
  have hopen : ('{' == '{') = true := rfl
  rw [if_pos hopen, findClose_no_close tok suf h]
  show (tokenValue ctx tok).data ++
    renderFuel ctx (tok ++ '}' :: suf).length suf = _
  rw [renderFuel_congr ctx ((tok ++ '}' :: suf).length) suf.length suf
    (by simp; omega) (Nat.le_refl _)]
  rfl

/-- A brace-free prefix is copied verbatim. -/
theorem renderList_append_no_brace (ctx : Tree) :
    ∀ (pre l : List Char), '{' ∉ pre →
      renderList ctx (pre ++ l) = pre ++ renderList ctx l := by
  intro pre
  induction pre with
  | nil => intro l _; rfl
  | cons c cs ih =>
    intro l h
    have hc : c ≠ '{' :=
      fun e => h (by rw [e]; exact List.mem_cons_self '{' cs)
    have h' : '{' ∉ cs := fun hm => h (List.mem_cons_of_mem c hm)
    rw [List.cons_append, renderList_cons_ne ctx c (cs ++ l) hc, ih l h',
      List.cons_append]

/-- C4: `render` substitutes each brace-delimited token by walking the
context from the token's root name through its dot-separated child
keys; a token whose walk misses at any step substitutes the empty
string, and rendering is a total function — a missing path never
produces an error. -/
theorem render_token_substitution (pre tok suf : String) (ctx : Tree)
    (hpre : '{' ∉ pre.data) (htok : '}' ∉ tok.data) :
    render (pre ++ "\x7b" ++ tok ++ "\x7d" ++ suf) ctx =
      pre ++ tokenValue ctx tok.data ++ render suf ctx ∧
    (walk ctx (splitDot tok) = none → tokenValue ctx tok.data = "") := by
  constructor
  · apply String.ext
    have hdata : (pre ++ "\x7b" ++ tok ++ "\x7d" ++ suf).data
        = pre.data ++ ('{' :: (tok.data ++ '}' :: suf.data)) := by
      rw [String.data_append, String.data_append, String.data_append,
        String.data_append]
      show pre.data ++ ['{'] ++ tok.data ++ ['}'] ++ suf.data = _
      simp [List.append_assoc]
    show renderList ctx (pre ++ "\x7b" ++ tok ++ "\x7d" ++ suf).data = _
    rw [hdata, renderList_append_no_brace ctx pre.data _ hpre,
      renderList_token ctx tok.data suf.data htok,
      String.data_append, String.data_append]
    show pre.data ++
        ((tokenValue ctx tok.data).data ++ renderList ctx suf.data)
      = pre.data ++ (tokenValue ctx tok.data).data ++ renderList ctx suf.data
    rw [List.append_assoc]
  · intro hmiss
    unfold tokenValue
    have : String.mk tok.data = tok := rfl
    rw [this, hmiss]

/-- Witness for C4: a token whose whole path is missing from the context
degrades to the empty string and the surrounding text survives. -/
theorem render_token_substitution_witness :
    render ("a" ++ "\x7b" ++ "missing.path" ++ "\x7d" ++ "b")
      (Tree.node []) = "ab" := by
  have h := render_token_substitution "a" "missing.path" "b"
    (Tree.node []) (by decide) (by decide)
  rw [h.1, h.2 rfl]
  rfl

/-- C5: for every matched RPC-to-SIP rule and response tree, the
response copies the rule's status code and reason literally; its i-th
header is the i-th header mapping's name paired with that mapping's
value resolved against the response data under the root key `data`, in
declaration order; and the body is the resolved body mapping when
present and empty otherwise. -/
theorem translateResponse_structure (en m : String) (d : Tree)
    (table : List (String × RpcRule)) (rule : RpcRule)
    (h : selectRule table (en ++ "." ++ m) = some rule) :
    ∃ resp, translateResponse en m d table = Except.ok resp ∧
      resp.statusCode = rule.status_code ∧
      resp.reason = rule.reason ∧
      resp.headers.length = rule.headers.length ∧
      (∀ i : Nat, resp.headers[i]? =
        (rule.headers[i]?).map
          (fun p => (p.1, resolve p.2 (dataContext d)))) ∧
      (rule.body = none → resp.body = "") ∧
      (∀ s, rule.body = some s → resp.body = resolve s (dataContext d)) := by
  refine ⟨{ statusCode := rule.status_code, reason := rule.reason,
            headers := rule.headers.map
              (fun p => (p.1, resolve p.2 (dataContext d))),
            body :=
              match rule.body with
              | some spec => resolve spec (dataContext d)
              | none => "" }, ?_, rfl, rfl, ?_, ?_, ?_, ?_⟩
  · simp only [translateResponse, h]
  · exact List.length_map _ _
  · intro i
    exact List.getElem?_map _ _ i
  · intro hb
    simp only [hb]
  · intro s hs
    simp only [hs]

/-- Witness for C5: the shipped `example.Call` rule applied to a
concrete response tree. -/
theorem translateResponse_structure_witness :
    ∃ resp,
      translateResponse "example" "Call"
        (Tree.node [("call_id", Tree.leaf "cid1"),
                    ("status", Tree.leaf "ok")]) shippedGrpcToSip =
        Except.ok resp ∧
      resp.statusCode = callRpcRule.status_code ∧
      resp.headers.length = callRpcRule.headers.length := by
  obtain ⟨resp, h1, h2, _, h4, _, _, _⟩ :=
    translateResponse_structure "example" "Call"
      (Tree.node [("call_id", Tree.leaf "cid1"),
                  ("status", Tree.leaf "ok")]) shippedGrpcToSip
      callRpcRule rfl
  exact ⟨resp, h1, h2, h4⟩

/-- C6: `add` of an already-present name fails with `AlreadyExists` and
publishes the old snapshot unchanged; `remove` of an absent name fails
with `NotFound` and publishes the old snapshot unchanged.  Both are
total functions with no partial side effect on failure. -/
theorem registry_failure_preserves_state :
    (∀ (reg : Registry) (e : Endpoint),
      (∃ x ∈ reg, x.name = e.name) →
      add reg e = (reg, Except.error RegistryError.alreadyExists)) ∧
    (∀ (reg : Registry) (n : String),
      (∀ x ∈ reg, x.name ≠ n) →
      remove reg n = (reg, Except.error RegistryError.notFound)) := by
  constructor
  · intro reg e h
    obtain ⟨x, hx, hname⟩ := h
    have hany : reg.any (fun x => x.name == e.name) = true :=
      List.any_eq_true.mpr ⟨x, hx, beq_iff_eq.mpr hname⟩
    simp [add, hany]
  · intro reg n h
    have hany : reg.any (fun x => x.name == n) = false := by
      rw [Bool.eq_false_iff]
      intro hc
      obtain ⟨x, hx, hb⟩ := List.any_eq_true.mp hc
      exact h x hx (beq_iff_eq.mp hb)
    simp only [remove, hany]
    rw [if_neg (by simp)]

/-- Witness for C6: the shipped registry rejects a duplicate `example`
and a removal of an unknown name, each leaving the snapshot intact. -/
theorem registry_failure_preserves_state_witness :
    add shippedRegistry exampleEndpoint =
      (shippedRegistry, Except.error RegistryError.alreadyExists) ∧
    remove shippedRegistry "missing" =
      (shippedRegistry, Except.error RegistryError.notFound) :=
  ⟨registry_failure_preserves_state.1 shippedRegistry exampleEndpoint
     ⟨exampleEndpoint, List.mem_cons_self _ _, rfl⟩,
   registry_failure_preserves_state.2 shippedRegistry "missing"
     (by decide)⟩

/-- The initial snapshot is among the snapshots of a mutation
sequence. -/
theorem mem_scanl_self (init : Registry) :
    ∀ ops : List RegOp, init ∈ List.scanl applyOp init ops := by
  intro ops
  cases ops with
  | nil => exact List.mem_singleton.mpr rfl
  | cons op rest =>
    rw [List.scanl_cons]
    exact List.mem_cons_self _ _

/-- C7: snapshot isolation — in every interleaving of registry
mutations with in-flight translation calls, each produced result equals
`translateRequest` evaluated against one of the registry snapshots
published before or after the mutations of the trace; no call observes
a half-updated registry. -/
theorem snapshot_isolation (table : List (String × SipRule))
    (init : Registry) (events : List Event) :
    ∀ r ∈ runTrace table init events,
      ∃ sip reg, reg ∈ List.scanl applyOp init (mutOps events) ∧
        r = translateRequest sip table reg := by
  induction events generalizing init with
  | nil =>
    intro r hr
    simp [runTrace] at hr
  | cons ev es ih =>
    intro r hr
    cases ev with
    | mutate op =>
      simp only [runTrace] at hr
      obtain ⟨sip, reg, hreg, heq⟩ := ih (applyOp init op) r hr
      refine ⟨sip, reg, ?_, heq⟩
      simp only [mutOps, List.scanl_cons]
      exact List.mem_cons_of_mem _ hreg
    | call sip =>
      simp only [runTrace] at hr
      rcases List.mem_cons.mp hr with hr | hr
      · exact ⟨sip, init, mem_scanl_self init (mutOps (Event.call sip :: es)),
          hr⟩
      · obtain ⟨s, reg, hreg, heq⟩ := ih init r hr
        exact ⟨s, reg, hreg, heq⟩

/-- Witness for C7: a one-call trace against the shipped registry. -/
theorem snapshot_isolation_witness :
    ∃ sip reg,
      reg ∈ List.scanl applyOp shippedRegistry
        (mutOps [Event.call inviteSip]) ∧
      translateRequest inviteSip shippedSipToGrpc shippedRegistry =
        translateRequest sip shippedSipToGrpc reg :=
  snapshot_isolation shippedSipToGrpc shippedRegistry
    [Event.call inviteSip]
    (translateRequest inviteSip shippedSipToGrpc shippedRegistry)
    (by simp [runTrace])

/-- C8: every shipped SIP-to-RPC rule (the DEFAULT rule included)
references an endpoint declared in the shipped endpoint list, so at
initial load `translateRequest` succeeds for every request — in
particular no configured rule can fail with `UnknownEndpoint`. -/
theorem shipped_rules_endpoint_known :
    (shippedSipToGrpc.all
      (fun p => shippedRegistry.any (fun e => e.name == p.2.endpoint))
      = true) ∧
    ∀ sip : SipRequest, ∃ d,
      translateRequest sip shippedSipToGrpc shippedRegistry =
        Except.ok d := by
  refine ⟨rfl, ?_⟩
  intro sip
  have hsel : ∃ r, selectRule shippedSipToGrpc sip.method = some r ∧
      r.endpoint = "example" := by
    cases h : lookupRule shippedSipToGrpc sip.method with
    | none =>
      refine ⟨defaultSipRule, ?_, rfl⟩
      simp [selectRule, h]
      rfl
    | some r =>
      refine ⟨r, by simp [selectRule, h], ?_⟩
      have hfind : ∃ pr,
          shippedSipToGrpc.find? (fun p => p.1 == sip.method) = some pr ∧
          pr.2 = r := by
        unfold lookupRule at h
        cases hf : shippedSipToGrpc.find? (fun p => p.1 == sip.method) with
        | none => rw [hf] at h; cases h
        | some pr => rw [hf] at h; cases h; exact ⟨pr, rfl, rfl⟩
      obtain ⟨pr, hf, hpr⟩ := hfind
      have hmem : pr ∈ shippedSipToGrpc := List.mem_of_find?_eq_some hf
      rw [← hpr]
      simp only [shippedSipToGrpc, List.mem_cons, List.mem_singleton,
        List.not_mem_nil, or_false] at hmem
      rcases hmem with h1 | h1 | h1 | h1 | h1 <;> (rw [h1]; rfl)
  obtain ⟨r, hs, hend⟩ := hsel
  have hget : get "example" shippedRegistry = some exampleEndpoint := rfl
  refine ⟨{ endpointName := "example", method := r.method,
            fields := buildFields (sipContext sip) r.fields }, ?_⟩
  simp only [translateRequest, hs, applyRule, hend, hget]

/-- C9: every extractor in the shipped raw rule table sets exactly one
extractor kind; load-time validation accepts the whole table and
produces exactly the tagged rule set used by the engine, so
`InvalidExtractor` is unreachable for the shipped configuration. -/
theorem shipped_table_validation :
    validateTable validateSipRule rawSipToGrpc =
      Except.ok shippedSipToGrpc ∧
    validateTable validateRpcRule rawGrpcToSip =
      Except.ok shippedGrpcToSip ∧
    (rawSipToGrpc.all
      (fun p => p.2.fields.all (fun q => kindCount q.2 == 1)) = true) ∧
    (rawGrpcToSip.all
      (fun p => p.2.headers.all (fun q => kindCount q.2 == 1) &&
        (match p.2.body with
         | none => true
         | some b => kindCount b == 1)) = true) :=
  ⟨rfl, rfl, rfl, rfl⟩

/-- After removing a name, no endpoint of that name is readable. -/
theorem get_remove_self (reg : Registry) (n : String) :
    get n (remove reg n).1 = none := by
  unfold remove
  by_cases h : reg.any (fun x => x.name == n) = true
  · rw [if_pos h]
    show get n (reg.filter fun x => !(x.name == n)) = none
    apply List.find?_eq_none.mpr
    intro x hx
    have hfil := (List.mem_filter.mp hx).2
    simp only [Bool.not_eq_true'] at hfil
    simp [hfil]
  · rw [if_neg h]
    show get n reg = none
    apply List.find?_eq_none.mpr
    intro x hx hb
    exact h (List.any_eq_true.mpr ⟨x, hx, hb⟩)

/-- C10: the administrative UI's endpoint edit is a remove followed by
an add, not one atomic operation: in the intermediate state between the
two mutations the edited name reads as absent, and a translation whose
selected rule references that name fails with `UnknownEndpoint`. -/
theorem endpoint_edit_not_atomic (reg : Registry) (e : Endpoint)
    (sip : SipRequest) (table : List (String × SipRule)) :
    handleSaveEndpoint "edit" reg e = (add (editIntermediate reg e) e).1 ∧
    get e.name (editIntermediate reg e) = none ∧
    (∀ r, selectRule table sip.method = some r → r.endpoint = e.name →
      translateRequest sip table (editIntermediate reg e) =
        Except.error MappingError.unknownEndpoint) := by
  refine ⟨rfl, get_remove_self reg e.name, ?_⟩
  intro r hsel hend
  simp only [translateRequest, hsel, applyRule, hend, editIntermediate,
    get_remove_self reg e.name]

/-- Witness for C10: editing the shipped `example` endpoint makes the
intermediate state lose it and the INVITE rule fail. -/
theorem endpoint_edit_not_atomic_witness :
    get "example" (editIntermediate shippedRegistry exampleEndpoint) =
      none ∧
    translateRequest inviteSip shippedSipToGrpc
      (editIntermediate shippedRegistry exampleEndpoint) =
      Except.error MappingError.unknownEndpoint := by
  have h := endpoint_edit_not_atomic shippedRegistry exampleEndpoint
    inviteSip shippedSipToGrpc
  exact ⟨h.2.1, h.2.2 inviteRule rfl rfl⟩

end SipGateway
